import Mathlib

/-!
# Verification of the holiday cache / refresh core (`holidays.py`)

Shallow embedding of the holiday data cache, refresh orchestrator, query
facade, autopost-time validation and the HTML anchor extractor of
`src/holidays.py`.

Modelling conventions:
* A calendar date (`datetime.date`) is an abstract day ordinal `Day := Nat`;
  `timedelta(days = k)` is `· + k`.  `fmtDay` stands for its ISO rendering.
* A `datetime` instant is a `Moment`: its calendar day plus hour and minute
  (the only fields the code inspects).
* Python strings are Lean `String`s; where the code uses `str.strip`,
  `str.split(":")` and `int(...)`, those stdlib behaviours are modelled
  explicitly at the character-list level (`pyStrip`, `splitCols`, `pyInt`),
  including `int`'s acceptance of surrounding whitespace, a sign and
  digit-group underscores (ASCII scope).
* The process-wide mutable state (`_cache_payload`, the cache file written by
  `_write_payload`, `_cached_result` set by `_cache_store`, and the autopost
  change event set by `_notify_autopost_update`) is an explicit `Sys` record
  threaded through the operations; `fetchLog` records, in order, the dates
  passed to `_download_html` (instrumentation of the network boundary).
* `_download_html` + HTML tokenisation are external I/O; a fetch oracle
  `Fetch : Day → Option (List String)` yields the holiday list the download
  and parse of that date's page would produce, `none` modelling the raised
  `RuntimeError` on timeout / network error.  The extractor itself
  (`_HolidayAnchorParser`) is modelled separately and exactly, over the tag /
  text event stream that Python's `HTMLParser` feeds to its handlers.
* Exceptions are `Except` values: `refresh_holiday_cache` and
  `ensure_holidays_for_date` can propagate failures, `get_today_holidays`
  catches everything and is total.
-/

/-! ## Calendar model -/

/-- A calendar date as an abstract day ordinal (`datetime.date`). -/
abbrev Day := Nat

/-- ISO rendering of a day ordinal (stand-in for `%Y-%m-%d`). -/
def fmtDay (d : Day) : String := toString d

/-- A `datetime` instant: calendar day plus wall-clock hour and minute
(the only components `holidays.py` inspects). -/
structure Moment where
  day : Day
  hour : Nat
  minute : Nat
deriving DecidableEq

/-! ## Data model (`HolidayResult`, persisted payload) -/

/-- `CALEND_RU_URL` from the source. -/
def CALEND_RU_URL : String := "https://www.calend.ru/day/"

/-- The per-date page URL `f"{CALEND_RU_URL}{target_date:%Y-%m-%d}/"`. -/
def dayUrl (d : Day) : String := CALEND_RU_URL ++ fmtDay d ++ "/"

/-- `HolidayResult` dataclass. -/
structure HolidayResult where
  date : Day
  holidays : List String
  source_url : String
  fetched_at : Moment
  error : Option String := none
deriving DecidableEq

/-- A persisted day entry of the JSON payload.  `date = none` models an
absent or non-ISO-parsable `"date"` field; `fetched_at = none` an absent or
unparsable `"fetched_at"`; `source_url = none` an absent field. -/
structure DayEntry where
  date : Option Day
  holidays : List String
  fetched_at : Option Moment
  source_url : Option String
deriving DecidableEq

/-- The `{}` a missing slot is replaced by (`payload.get(key) or {}`). -/
def emptyEntry : DayEntry := ⟨none, [], none, none⟩

/-- The persisted cache payload (JSON object). -/
structure CachePayload where
  autopost_time : Option String
  updated_at : Option Moment
  today : Option DayEntry
  tomorrow : Option DayEntry
  autopost_message_ids : List (String × Int)
  original_chat_title : Option String
deriving DecidableEq

/-- Process-wide state threaded through the operations:
the in-memory payload, the persisted file contents (last `_write_payload`),
the `_cached_result` global written by `_cache_store`, whether
`_notify_autopost_update` has signalled the autopost event, and the ordered
log of dates handed to `_download_html`. -/
structure Sys where
  payload : CachePayload
  file : Option CachePayload
  cachedResult : Option HolidayResult
  eventSet : Bool
  fetchLog : List Day
deriving DecidableEq

/-- Network + extraction oracle: the holiday list obtained by downloading and
parsing the page of a date; `none` models a raised network/timeout error. -/
abbrev Fetch := Day → Option (List String)

/-! ## Fixed user-visible strings (from the source) -/

/-- "No holidays found for today." -/
def errNoToday : String := "Не найдено праздников на сегодня."

/-- "No holidays found for DD.MM.YYYY." (date rendered via `fmtDay`). -/
def errNoOnDate (d : Day) : String :=
  "Не найдено праздников на " ++ fmtDay d ++ "."

/-- "Could not update holiday data, showing previously saved." -/
def errCouldNotUpdate : String :=
  "Не удалось обновить данные о праздниках, показаны сохранённые ранее."

/-- "Could not retrieve holiday data." -/
def errCouldNotRetrieve : String := "Не удалось получить данные о праздниках."

/-- "Time must be in HH:MM format." -/
def timeFmtErr : String := "Время должно быть в формате ЧЧ:ММ"

/-- "Invalid hour or minute value." -/
def timeRangeErr : String := "Недопустимое значение часов или минут"

/-! ## Python string/int primitives used by `_normalize_time` -/

/-- Whitespace test used by `str.strip` / `int` (ASCII scope). -/
def isWs (c : Char) : Bool := c.isWhitespace

/-- `str.strip()` at the character-list level. -/
def pyStrip (l : List Char) : List Char :=
  ((l.dropWhile isWs).reverse.dropWhile isWs).reverse

/-- Digit accumulation of Python `int`, allowing single `_` separators
between digits (`int("1_2") = 12`); first character already consumed. -/
def pyDigitsAux : Nat → List Char → Option Nat
  | acc, [] => some acc
  | acc, c :: cs =>
    if c = '_' then
      match cs with
      | [] => none
      | c2 :: cs2 =>
        if c2.isDigit then pyDigitsAux (acc * 10 + (c2.toNat - 48)) cs2 else none
    else if c.isDigit then pyDigitsAux (acc * 10 + (c.toNat - 48)) cs else none

/-- A nonempty digit sequence (with optional underscore grouping). -/
def pyDigits : List Char → Option Nat
  | [] => none
  | c :: cs => if c.isDigit then pyDigitsAux (c.toNat - 48) cs else none

/-- Python `int(str)`: strips surrounding whitespace, optional sign,
then digits. -/
def pyInt (s : List Char) : Option Int :=
  match pyStrip s with
  | [] => none
  | c :: rest =>
    if c = '+' then (pyDigits rest).map Int.ofNat
    else if c = '-' then (pyDigits rest).map (fun n => -(Int.ofNat n))
    else (pyDigits (c :: rest)).map Int.ofNat

/-- Python `str.split(":")` at the character-list level
(`"a:b".split(":") = ["a", "b"]`, `":".split(":") = ["", ""]`). -/
def splitCols : List Char → List (List Char)
  | [] => [[]]
  | c :: cs =>
    if c = ':' then [] :: splitCols cs
    else
      match splitCols cs with
      | [] => [[c]]
      | g :: gs => (c :: g) :: gs

/-- The decimal digit character of `n` (defined for `n < 10`; clamped
otherwise, only ever applied to single digits). -/
def digitChar : Nat → Char
  | 0 => '0'
  | 1 => '1'
  | 2 => '2'
  | 3 => '3'
  | 4 => '4'
  | 5 => '5'
  | 6 => '6'
  | 7 => '7'
  | 8 => '8'
  | _ => '9'

/-- Zero-padded two-digit rendering (`f"{n:02d}"` for `n ≤ 99`). -/
def pad2 (n : Nat) : List Char := [digitChar (n / 10), digitChar (n % 10)]

/-- `_normalize_time` from the source: strip, require exactly two
colon-separated parts, parse both with Python `int`, range-check, and render
zero-padded.  `Except.error` models the raised `ValueError`. -/
def _normalize_time (value : String) : Except String String :=
  let vs := pyStrip value.toList
  if vs.isEmpty then .error timeFmtErr
  else
    match splitCols vs with
    | [h, m] =>
      match pyInt h, pyInt m with
      | some hi, some mi =>
        if 0 ≤ hi ∧ hi ≤ 23 ∧ 0 ≤ mi ∧ mi ≤ 59 then
          .ok (String.mk (pad2 hi.toNat ++ ':' :: pad2 mi.toNat))
        else .error timeRangeErr
      | _, _ => .error timeFmtErr
    | _ => .error timeFmtErr

/-! ## Extractor (`_HolidayAnchorParser`, `_parse_holidays`) -/

/-- One event of the tag/text stream Python's `HTMLParser` feeds to the
handlers of `_HolidayAnchorParser`.  Attributes come as (name, optional
value) pairs, as in `handle_starttag`. -/
inductive Tok where
  | startTag (tag : String) (attrs : List (String × Option String))
  | endTag (tag : String)
  | text (data : String)
deriving DecidableEq

/-- `dict(attrs).get(key)`: the value of the last binding of `key`
(later duplicates override in a Python dict), which may itself be `None`. -/
def getAttr (attrs : List (String × Option String)) (key : String) : Option String :=
  match attrs.reverse.find? (fun p => p.1 = key) with
  | some p => p.2
  | none => none

/-- `needle in hay` on character lists (Python `in` for substrings). -/
def leadsWith : List Char → List Char → Bool
  | [], _ => true
  | _ :: _, [] => false
  | a :: as, b :: bs => a = b && leadsWith as bs

/-- Substring occurrence test. -/
def hasSub (needle : List Char) : List Char → Bool
  | [] => leadsWith needle []
  | c :: t => leadsWith needle (c :: t) || hasSub needle t

/-- Python `needle in hay` on strings. -/
def containsSub (needle hay : String) : Bool := hasSub needle.toList hay.toList

/-- Mutable state of `_HolidayAnchorParser`. -/
structure AnchorParser where
  target_div_id : String
  inside_target : Bool
  target_depth : Nat
  capture : Bool
  buffer : List String
  holidays : List String
deriving DecidableEq

/-- `_HolidayAnchorParser.__init__`. -/
def initParser (target_div_id : String) : AnchorParser :=
  ⟨target_div_id, false, 0, false, [], []⟩

/-- `handle_starttag`. -/
def handle_starttag (p : AnchorParser) (tag : String)
    (attrs : List (String × Option String)) : AnchorParser :=
  if tag = "div" then
    if p.inside_target then { p with target_depth := p.target_depth + 1 }
    else if getAttr attrs "id" = some p.target_div_id then
      { p with inside_target := true, target_depth := 1 }
    else p
  else if !p.inside_target then p
  else if tag = "a" then
    let href := (getAttr attrs "href").getD ""
    if containsSub "/holidays/0/0/" href then { p with capture := true, buffer := [] }
    else p
  else p

/-- `handle_endtag`.  The depth decrement uses `Nat` subtraction; Python's
`<= 0` exit test coincides with the `= 0` test here (the depth is ≥ 1
whenever `inside_target` holds, and `0 - 1 = 0` also exits). -/
def handle_endtag (p : AnchorParser) (tag : String) : AnchorParser :=
  if p.inside_target ∧ tag = "div" then
    let d := p.target_depth - 1
    if d = 0 then { p with inside_target := false, target_depth := 0 }
    else { p with target_depth := d }
  else if tag = "a" ∧ p.capture then
    let t := String.mk (pyStrip (String.join p.buffer).toList)
    { p with
      holidays := if t ≠ "" then p.holidays ++ [t] else p.holidays,
      capture := false, buffer := [] }
  else p

/-- `handle_data`. -/
def handle_data (p : AnchorParser) (s : String) : AnchorParser :=
  if p.capture then { p with buffer := p.buffer ++ [s] } else p

/-- Dispatch of one parser event. -/
def stepTok (p : AnchorParser) : Tok → AnchorParser
  | .startTag tag attrs => handle_starttag p tag attrs
  | .endTag tag => handle_endtag p tag
  | .text s => handle_data p s

/-- `feed`: run the handlers over the event stream, return the holidays. -/
def feedToks (p : AnchorParser) (toks : List Tok) : List String :=
  (toks.foldl stepTok p).holidays

/-- `div_id = f"div_{year}-{month}-{day}"` — no leading zeros on month/day
(`Nat` rendering never pads). -/
def div_id_for (year month day : Nat) : String :=
  "div_" ++ toString year ++ "-" ++ toString month ++ "-" ++ toString day

/-- `_parse_holidays` over the tokenised markup of the page of the date
with the given year/month/day components. -/
def _parse_holidays (toks : List Tok) (year month day : Nat) : List String :=
  feedToks (initParser (div_id_for year month day)) toks

/-! ## Cache store and query facade -/

/-- `_serialize_day`: the day entry written for a freshly fetched date.
The stored `source_url` is the bare `CALEND_RU_URL`. -/
def _serialize_day (target_date : Day) (holidays : List String)
    (fetched_at : Moment) : DayEntry :=
  ⟨some target_date, holidays, some fetched_at, some CALEND_RU_URL⟩

/-- `_payload_entry_to_result`: materialize a `HolidayResult` from a stored
entry; `none` when the stored date is absent/unparsable.  `now` is the
wall-clock instant at materialisation time (`_normalize_now(None)`), used
both as the `fetched_at` fallback and for the empty-list error text. -/
def _payload_entry_to_result (entry : DayEntry) (now : Moment) :
    Option HolidayResult :=
  match entry.date with
  | none => none
  | some parsed_date =>
    let fetched_at := entry.fetched_at.getD now
    let source_url :=
      match entry.source_url with
      | some s => if s = "" then CALEND_RU_URL else s
      | none => CALEND_RU_URL
    let error :=
      if entry.holidays.isEmpty then
        some (if parsed_date = now.day then errNoToday else errNoOnDate parsed_date)
      else none
    some ⟨parsed_date, entry.holidays, source_url, fetched_at, error⟩

/-- One iteration of the slot scan of `get_cached_holiday_result`: skip a
slot whose entry has a missing/unparsable date or a different date, and
materialise a matching entry. -/
def slotLookup (slot : Option DayEntry) (target_date : Day) (now : Moment) :
    Option HolidayResult :=
  let e := slot.getD emptyEntry
  match e.date with
  | some d => if d = target_date then _payload_entry_to_result e now else none
  | none => none

/-- `get_cached_holiday_result`: scan the `today` then the `tomorrow` slot,
returning the materialisation of the first entry whose stored date equals
`target_date`. -/
def get_cached_holiday_result (p : CachePayload) (target_date : Day)
    (now : Moment) : Option HolidayResult :=
  match slotLookup p.today target_date now with
  | some r => some r
  | none => slotLookup p.tomorrow target_date now

/-- The near-midnight lookahead test (`hour == 23 and minute >= 45`). -/
def nearMidnight (m : Moment) : Bool := m.hour == 23 && 45 ≤ m.minute

/-- The date fetched into the `today` slot by a refresh at `now`. -/
def refreshTodayTarget (m : Moment) : Day :=
  if nearMidnight m then m.day + 1 else m.day

/-- The date fetched into the `tomorrow` slot by a refresh at `now`. -/
def refreshTomorrowTarget (m : Moment) : Day :=
  if nearMidnight m then m.day + 2 else m.day + 1

/-- `refresh_holiday_cache`: select the date pair from `now`, download and
parse both pages, overwrite both slots and `updated_at`, persist, and return
the result materialised from the fresh `today` entry (also recorded via
`_cache_store`).  A failed download propagates as `Except.error` and leaves
the payload, file and cached result untouched.  Executions are serialized by
`_refresh_lock`; in this sequential model a call runs atomically. -/
def refresh_holiday_cache (now : Moment) (fetch : Fetch) (s : Sys) :
    Except Unit (Option HolidayResult) × Sys :=
  let td := refreshTodayTarget now
  let md := refreshTomorrowTarget now
  match fetch td with
  | none => (.error (), { s with fetchLog := s.fetchLog ++ [td] })
  | some todayHs =>
    match fetch md with
    | none => (.error (), { s with fetchLog := s.fetchLog ++ [td, md] })
    | some tomorrowHs =>
      let p2 : CachePayload :=
        { s.payload with
          today := some (_serialize_day td todayHs now),
          tomorrow := some (_serialize_day md tomorrowHs now),
          updated_at := some now }
      match _payload_entry_to_result (_serialize_day td todayHs now) now with
      | some r =>
        (.ok (some r),
          { payload := p2, file := some p2, cachedResult := some r,
            eventSet := s.eventSet, fetchLog := s.fetchLog ++ [td, md] })
      | none =>
        (.ok none,
          { payload := p2, file := some p2, cachedResult := s.cachedResult,
            eventSet := s.eventSet, fetchLog := s.fetchLog ++ [td, md] })

/-- `get_today_holidays`: fresh cache → refresh → stale cache annotated with
`errCouldNotUpdate` → synthetic empty result with `errCouldNotRetrieve`.
All refresh failures are caught, so the function is total. -/
def get_today_holidays (now : Moment) (force_refresh : Bool) (fetch : Fetch)
    (s : Sys) : HolidayResult × Sys :=
  let target := now.day
  let hit : Option HolidayResult :=
    if force_refresh then none
    else
      match get_cached_holiday_result s.payload target now with
      | some c => if c.holidays.isEmpty then none else some c
      | none => none
  match hit with
  | some c => (c, { s with cachedResult := some c })
  | none =>
    match refresh_holiday_cache now fetch s with
    | (.ok (some r), s1) => (r, s1)
    | (_, s1) =>
      match get_cached_holiday_result s1.payload target now with
      | some c =>
        let c2 : HolidayResult := { c with error := some errCouldNotUpdate }
        (c2, { s1 with cachedResult := some c2 })
      | none =>
        let fb : HolidayResult :=
          ⟨target, [], CALEND_RU_URL, now, some errCouldNotRetrieve⟩
        (fb, { s1 with cachedResult := some fb })

/-- `ensure_holidays_for_date`: cached entry if present; for today/tomorrow
a full refresh (whose failure propagates) followed by a cache re-check;
for any other date a direct one-off download+parse whose failure is caught
(`.ok none`) and which never touches the cache. -/
def ensure_holidays_for_date (target_date : Day) (now : Moment)
    (fetch : Fetch) (s : Sys) : Except Unit (Option HolidayResult) × Sys :=
  match get_cached_holiday_result s.payload target_date now with
  | some cached => (.ok (some cached), s)
  | none =>
    if target_date = now.day ∨ target_date = now.day + 1 then
      match refresh_holiday_cache now fetch s with
      | (.error e, s1) => (.error e, s1)
      | (.ok _, s1) =>
        (.ok (get_cached_holiday_result s1.payload target_date now), s1)
    else
      let s1 : Sys := { s with fetchLog := s.fetchLog ++ [target_date] }
      match fetch target_date with
      | none => (.ok none, s1)
      | some hs =>
        let error :=
          if hs.isEmpty then
            some (if target_date = now.day then errNoToday
                  else errNoOnDate target_date)
          else none
        (.ok (some ⟨target_date, hs, dayUrl target_date, now, error⟩), s1)

/-- `update_autopost_time`: validate/normalize; if the normalized value
already equals the stored one, return it without writing or signalling;
otherwise store it, persist the payload and signal the autopost event. -/
def update_autopost_time (value : String) (s : Sys) :
    Except String String × Sys :=
  match _normalize_time value with
  | .error e => (.error e, s)
  | .ok normalized =>
    if s.payload.autopost_time = some normalized then (.ok normalized, s)
    else
      let p2 := { s.payload with autopost_time := some normalized }
      (.ok normalized, { s with payload := p2, file := some p2, eventSet := true })

/-! ## Statement-level definitions -/

/-- Numeric value of a digit character. -/
def digitVal (c : Char) : Nat := c.toNat - 48

/-- The claim's admissible input shapes for the autopost time: exactly
`H:MM`, `HH:M` or `HH:MM`, digits only, hour ≤ 23 and minute ≤ 59.
(Written from the spec's words, to compare with `_normalize_time`.) -/
def specTimeShape (s : String) : Bool :=
  match s.toList with
  | [a, b, c, d] =>
    (b == ':' && a.isDigit && c.isDigit && d.isDigit
      && decide (digitVal a ≤ 23) && decide (digitVal c * 10 + digitVal d ≤ 59))
    || (c == ':' && a.isDigit && b.isDigit && d.isDigit
      && decide (digitVal a * 10 + digitVal b ≤ 23) && decide (digitVal d ≤ 59))
  | [a, b, c, d, e] =>
    c == ':' && a.isDigit && b.isDigit && d.isDigit && e.isDigit
      && decide (digitVal a * 10 + digitVal b ≤ 23)
      && decide (digitVal d * 10 + digitVal e ≤ 59)
  | _ => false

/-- `l` renders the number `n` with one digit (only possible for `n < 10`)
or with two digits (zero-padded below 10). -/
def okRepr (n : Nat) (l : List Nat) : Prop :=
  (n < 10 ∧ l = [n]) ∨ l = [n / 10, n % 10]

/-- The spec's `HolidayResult` invariant: `error` is set iff `holidays` is
empty, and its text depends on whether the result's date is the current
calendar date. -/
def resultInvariant (r : HolidayResult) (now : Moment) : Prop :=
  (r.error = none ↔ r.holidays ≠ []) ∧
  (r.holidays = [] →
    r.error = some (if r.date = now.day then errNoToday else errNoOnDate r.date))

/-- `Except` success test (no `DecidableEq` needed). -/
def isOkE {ε α : Type} : Except ε α → Bool
  | .ok _ => true
  | .error _ => false

/-! ## Helper lemmas -/

/-- A slot scan step succeeds exactly when the slot's entry carries the
target date. -/
theorem slotLookup_isSome (slot : Option DayEntry) (target : Day) (now : Moment) :
    (slotLookup slot target now).isSome = true ↔
      (slot.getD emptyEntry).date = some target := by
  simp only [slotLookup]
  cases h : (slot.getD emptyEntry).date with
  | none => simp [h]
  | some d =>
    by_cases hd : d = target
    · subst hd
      simp [h, _payload_entry_to_result]
    · simp [h, hd]

/-- A successful slot scan step is a materialisation of that slot's entry. -/
theorem slotLookup_eq_entry (slot : Option DayEntry) (target : Day) (now : Moment)
    (r : HolidayResult) (h : slotLookup slot target now = some r) :
    _payload_entry_to_result (slot.getD emptyEntry) now = some r := by
  simp only [slotLookup] at h
  cases hd : (slot.getD emptyEntry).date with
  | none => simp [hd] at h
  | some d =>
    simp only [hd] at h
    by_cases hdt : d = target
    · simpa [hdt] using h
    · simp [hdt] at h

/-- Results materialised from a cache entry satisfy the error/emptiness
invariant with the date-dependent text. -/
theorem entry_result_invariant (e : DayEntry) (now : Moment) (r : HolidayResult)
    (h : _payload_entry_to_result e now = some r) : resultInvariant r now := by
  simp only [_payload_entry_to_result] at h
  cases hd : e.date with
  | none => simp [hd] at h
  | some d =>
    simp only [hd] at h
    injection h with h
    subst h
    by_cases he : e.holidays.isEmpty
    · have he' : e.holidays = [] := List.isEmpty_iff.mp he
      simp [resultInvariant, he, he']
    · have he' : e.holidays ≠ [] := by simpa [List.isEmpty_iff] using he
      simp [resultInvariant, he, he']

/-- A failed refresh leaves payload, file, cached result and event
untouched (only the fetch log grows). -/
theorem refresh_error_frame (now : Moment) (fetch : Fetch) (s : Sys)
    (h : (refresh_holiday_cache now fetch s).1 = .error ()) :
    (refresh_holiday_cache now fetch s).2.payload = s.payload ∧
    (refresh_holiday_cache now fetch s).2.file = s.file ∧
    (refresh_holiday_cache now fetch s).2.cachedResult = s.cachedResult ∧
    (refresh_holiday_cache now fetch s).2.eventSet = s.eventSet := by
  cases h1 : fetch (refreshTodayTarget now) with
  | none => simp [refresh_holiday_cache, h1]
  | some hs1 =>
    cases h2 : fetch (refreshTomorrowTarget now) with
    | none => simp [refresh_holiday_cache, h1, h2]
    | some hs2 =>
      simp [refresh_holiday_cache, h1, h2, _serialize_day,
        _payload_entry_to_result] at h

/-- A successful refresh stores freshly serialized entries for the two
selected dates in the two slots, stamps `updated_at`, persists the payload,
and appends exactly the two selected dates to the download log. -/
theorem refresh_ok_state (now : Moment) (fetch : Fetch) (s : Sys)
    (h : isOkE (refresh_holiday_cache now fetch s).1 = true) :
    ∃ hs1 hs2,
      fetch (refreshTodayTarget now) = some hs1 ∧
      fetch (refreshTomorrowTarget now) = some hs2 ∧
      (refresh_holiday_cache now fetch s).2.payload =
        { s.payload with
          today := some (_serialize_day (refreshTodayTarget now) hs1 now),
          tomorrow := some (_serialize_day (refreshTomorrowTarget now) hs2 now),
          updated_at := some now } ∧
      (refresh_holiday_cache now fetch s).2.file =
        some (refresh_holiday_cache now fetch s).2.payload ∧
      (refresh_holiday_cache now fetch s).2.fetchLog =
        s.fetchLog ++ [refreshTodayTarget now, refreshTomorrowTarget now] := by
  cases h1 : fetch (refreshTodayTarget now) with
  | none => simp [refresh_holiday_cache, h1, isOkE] at h
  | some hs1 =>
    cases h2 : fetch (refreshTomorrowTarget now) with
    | none => simp [refresh_holiday_cache, h1, h2, isOkE] at h
    | some hs2 =>
      refine ⟨hs1, hs2, rfl, rfl, ?_, ?_, ?_⟩ <;>
        simp [refresh_holiday_cache, h1, h2, _serialize_day,
          _payload_entry_to_result]

/-- The result of a successful refresh is materialised from the freshly
serialized `today` entry. -/
theorem refresh_ok_result (now : Moment) (fetch : Fetch) (s : Sys)
    (r : HolidayResult) (s' : Sys)
    (h : refresh_holiday_cache now fetch s = (.ok (some r), s')) :
    ∃ e, _payload_entry_to_result e now = some r := by
  cases h1 : fetch (refreshTodayTarget now) with
  | none => simp [refresh_holiday_cache, h1] at h
  | some hs1 =>
    cases h2 : fetch (refreshTomorrowTarget now) with
    | none => simp [refresh_holiday_cache, h1, h2] at h
    | some hs2 =>
      refine ⟨_serialize_day (refreshTodayTarget now) hs1 now, ?_⟩
      simp only [refresh_holiday_cache, h1, h2] at h
      revert h
      cases hp : _payload_entry_to_result
          (_serialize_day (refreshTodayTarget now) hs1 now) now with
      | none => intro h; simp at h
      | some r0 =>
        intro h
        simp at h
        rw [h.1]

/-! ## Claims -/

/-- C5: the extractor's container identifier for 2025-01-01 is
`div_2025-1-1` (no leading zeros on month/day), and on markup holding the
target container with one nested container and one qualifying anchor
"Holiday A" inside, plus a qualifying anchor "Ignored" outside the target,
extraction for 2025-01-01 yields exactly `["Holiday A"]`: the nested
container's close tag does not end the target early, and anchors outside
the target are ignored. -/
theorem c5_theorem :
    div_id_for 2025 1 1 = "div_2025-1-1" ∧
    _parse_holidays
      [ .startTag "div" [("id", some "div_2025-1-1")],
        .startTag "div" [("class", some "inner")],
        .startTag "a" [("href", some "https://www.calend.ru/holidays/0/0/123/")],
        .text "Holiday A",
        .endTag "a",
        .endTag "div",
        .endTag "div",
        .startTag "a" [("href", some "/holidays/0/0/9/")],
        .text "Ignored",
        .endTag "a" ] 2025 1 1 = ["Holiday A"] :=
  ⟨by decide, by decide⟩

/-- C7: `get_cached_holiday_result` returns a result exactly when one of the
two slots (`today` or `tomorrow`) holds an entry whose stored date equals the
target date, regardless of which slot it is in; the slot label is never used
to decide the match. -/
theorem c7_theorem (p : CachePayload) (d : Day) (now : Moment) :
    (get_cached_holiday_result p d now).isSome = true ↔
      ((p.today.getD emptyEntry).date = some d ∨
       (p.tomorrow.getD emptyEntry).date = some d) := by
  unfold get_cached_holiday_result
  cases hT : slotLookup p.today d now with
  | some r =>
    have hA := (slotLookup_isSome p.today d now).mp (by rw [hT]; rfl)
    simp [hA]
  | none =>
    have hA : ¬(p.today.getD emptyEntry).date = some d := by
      intro hc
      have := (slotLookup_isSome p.today d now).mpr hc
      rw [hT] at this
      simp at this
    simp [slotLookup_isSome, hA]

/-- C7 witness: a payload whose `tomorrow` slot (and only it) carries the
looked-up date is a cache hit. -/
theorem c7_witness :
    ((some ⟨some 3, ["Old"], none, none⟩ : Option DayEntry).getD emptyEntry).date
        = some (5 : Day) ∨
    ((some ⟨some 5, [], none, none⟩ : Option DayEntry).getD emptyEntry).date
        = some (5 : Day) :=
  (c7_theorem
    ⟨some "10:00", none, some ⟨some 3, ["Old"], none, none⟩,
      some ⟨some 5, [], none, none⟩, [], none⟩ 5 ⟨5, 12, 0⟩).mp (by decide)

/-- C9: for a target date cached in neither slot and equal to neither the
current date nor the current date plus one, `ensure_holidays_for_date` does
one direct download for that date and leaves the in-memory payload, the
persisted file, the stored result and the autopost event unchanged, whether
the direct fetch succeeds or fails. -/
theorem c9_theorem (target : Day) (now : Moment) (fetch : Fetch) (s : Sys)
    (h1 : get_cached_holiday_result s.payload target now = none)
    (h2 : target ≠ now.day) (h3 : target ≠ now.day + 1) :
    (ensure_holidays_for_date target now fetch s).2.payload = s.payload ∧
    (ensure_holidays_for_date target now fetch s).2.file = s.file ∧
    (ensure_holidays_for_date target now fetch s).2.cachedResult
        = s.cachedResult ∧
    (ensure_holidays_for_date target now fetch s).2.eventSet = s.eventSet ∧
    (ensure_holidays_for_date target now fetch s).2.fetchLog
        = s.fetchLog ++ [target] := by
  have hcond : ¬(target = now.day ∨ target = now.day + 1) := by tauto
  cases hf : fetch target with
  | none => simp [ensure_holidays_for_date, h1, hcond, hf]
  | some hs => simp [ensure_holidays_for_date, h1, hcond, hf]

/-- C9 witness: direct fetch of an out-of-range date against a concrete
state leaves everything but the download log unchanged. -/
theorem c9_witness :
    (ensure_holidays_for_date 9 ⟨5, 12, 0⟩ (fun _ => some ["Z"])
        ⟨⟨some "10:00", none, some ⟨some 5, ["X"], none, none⟩,
          some ⟨some 6, [], none, none⟩, [], none⟩,
         none, none, false, []⟩).2.payload =
      ⟨some "10:00", none, some ⟨some 5, ["X"], none, none⟩,
        some ⟨some 6, [], none, none⟩, [], none⟩ ∧
    (ensure_holidays_for_date 9 ⟨5, 12, 0⟩ (fun _ => some ["Z"])
        ⟨⟨some "10:00", none, some ⟨some 5, ["X"], none, none⟩,
          some ⟨some 6, [], none, none⟩, [], none⟩,
         none, none, false, []⟩).2.fetchLog = [9] := by
  have h := c9_theorem 9 ⟨5, 12, 0⟩ (fun _ => some ["Z"])
    ⟨⟨some "10:00", none, some ⟨some 5, ["X"], none, none⟩,
      some ⟨some 6, [], none, none⟩, [], none⟩,
     none, none, false, []⟩ (by decide) (by decide) (by decide)
  exact ⟨h.1, h.2.2.2.2⟩

/-- C2: when a cache entry for the current date exists and the refresh
attempt fails (the refresh being attempted because the call forces it or the
entry is empty), `get_today_holidays` returns that cached entry — same date,
holidays, source URL and fetch time — with its error field set to the fixed
"could not update, showing previously saved data" notice, instead of raising
or returning an empty result. -/
theorem c2_theorem (now : Moment) (force_refresh : Bool) (fetch : Fetch)
    (s : Sys) (c : HolidayResult)
    (hc : get_cached_holiday_result s.payload now.day now = some c)
    (hf : (refresh_holiday_cache now fetch s).1 = .error ())
    (hforce : force_refresh = true ∨ c.holidays = []) :
    (get_today_holidays now force_refresh fetch s).1 =
      { c with error := some errCouldNotUpdate } := by
  obtain ⟨hpay, -, -, -⟩ := refresh_error_frame now fetch s hf
  set s1 := (refresh_holiday_cache now fetch s).2 with hs1def
  have hre : refresh_holiday_cache now fetch s = (.error (), s1) := by
    rw [hs1def, ← hf]
  rcases hforce with hft | hemp
  · subst hft
    simp [get_today_holidays, hre, hpay, hc]
  · cases force_refresh
    · simp [get_today_holidays, hre, hpay, hc, hemp]
    · simp [get_today_holidays, hre, hpay, hc]

/-- C2 witness: with an empty cache entry forcing a refresh path and a
failing fetch against a concrete state, the annotated cached entry is
returned. -/
theorem c2_witness :
    (get_today_holidays ⟨5, 12, 0⟩ true (fun _ => none)
        ⟨⟨some "10:00", none,
          some ⟨some 5, ["X"], some ⟨5, 0, 0⟩, some CALEND_RU_URL⟩,
          some ⟨some 6, [], none, none⟩, [], none⟩,
         none, none, false, []⟩).1 =
      ⟨5, ["X"], CALEND_RU_URL, ⟨5, 0, 0⟩, some errCouldNotUpdate⟩ := by
  have h := c2_theorem ⟨5, 12, 0⟩ true (fun _ => none)
    ⟨⟨some "10:00", none,
      some ⟨some 5, ["X"], some ⟨5, 0, 0⟩, some CALEND_RU_URL⟩,
      some ⟨some 6, [], none, none⟩, [], none⟩,
     none, none, false, []⟩
    ⟨5, ["X"], CALEND_RU_URL, ⟨5, 0, 0⟩, none⟩
    (by decide) (by rfl) (Or.inl rfl)
  exact h

/-- C1 counterexample: with no cache entry for the current date and a
failing refresh, the synthetic empty result with the "could not retrieve"
notice is returned, but the cache's `today` slot still holds its old entry
(date 3), not the synthetic result for the current date 5 — so the synthetic
result is not persisted as the `today` slot entry, contradicting the
claim. -/
theorem c1_counterexample :
    (get_today_holidays ⟨5, 12, 0⟩ false (fun _ => none)
        ⟨⟨some "10:00", none,
          some ⟨some 3, ["Old"], some ⟨3, 0, 0⟩, some CALEND_RU_URL⟩,
          some ⟨some 4, [], none, none⟩, [], none⟩,
         none, none, false, []⟩).1 =
      ⟨5, [], CALEND_RU_URL, ⟨5, 12, 0⟩, some errCouldNotRetrieve⟩ ∧
    ((get_today_holidays ⟨5, 12, 0⟩ false (fun _ => none)
        ⟨⟨some "10:00", none,
          some ⟨some 3, ["Old"], some ⟨3, 0, 0⟩, some CALEND_RU_URL⟩,
          some ⟨some 4, [], none, none⟩, [], none⟩,
         none, none, false, []⟩).2.payload.today.getD emptyEntry).date
      = some 3 ∧
    (get_today_holidays ⟨5, 12, 0⟩ false (fun _ => none)
        ⟨⟨some "10:00", none,
          some ⟨some 3, ["Old"], some ⟨3, 0, 0⟩, some CALEND_RU_URL⟩,
          some ⟨some 4, [], none, none⟩, [], none⟩,
         none, none, false, []⟩).2.file = none := by
  exact ⟨by decide, by decide, by decide⟩

/-- C1 (amended): with no cache entry for the current date and a failing
refresh, `get_today_holidays` returns the synthetic empty result for the
current date with the fixed "could not retrieve holiday data" notice and
records it in the in-memory last-result store (`_cache_store`); the
persisted payload — its `today` slot included — and the cache file are left
unchanged. -/
theorem c1_theorem (now : Moment) (force_refresh : Bool) (fetch : Fetch)
    (s : Sys)
    (h1 : get_cached_holiday_result s.payload now.day now = none)
    (h2 : (refresh_holiday_cache now fetch s).1 = .error ()) :
    (get_today_holidays now force_refresh fetch s).1 =
      ⟨now.day, [], CALEND_RU_URL, now, some errCouldNotRetrieve⟩ ∧
    (get_today_holidays now force_refresh fetch s).2.payload = s.payload ∧
    (get_today_holidays now force_refresh fetch s).2.file = s.file ∧
    (get_today_holidays now force_refresh fetch s).2.cachedResult =
      some ⟨now.day, [], CALEND_RU_URL, now, some errCouldNotRetrieve⟩ := by
  obtain ⟨hpay, hfile, -, -⟩ := refresh_error_frame now fetch s h2
  set s1 := (refresh_holiday_cache now fetch s).2 with hs1def
  have hre : refresh_holiday_cache now fetch s = (.error (), s1) := by
    rw [hs1def, ← h2]
  cases force_refresh
  · simp [get_today_holidays, hre, hpay, hfile, h1]
  · simp [get_today_holidays, hre, hpay, hfile, h1]

/-- C1 witness: the concrete no-entry, failing-fetch scenario, with the
payload and file coming out unchanged and the synthetic result stored
in memory. -/
theorem c1_witness :
    (get_today_holidays ⟨5, 12, 0⟩ false (fun _ => none)
        ⟨⟨some "10:00", none, none, none, [], none⟩,
         none, none, false, []⟩).1 =
      ⟨5, [], CALEND_RU_URL, ⟨5, 12, 0⟩, some errCouldNotRetrieve⟩ ∧
    (get_today_holidays ⟨5, 12, 0⟩ false (fun _ => none)
        ⟨⟨some "10:00", none, none, none, [], none⟩,
         none, none, false, []⟩).2.payload =
      ⟨some "10:00", none, none, none, [], none⟩ ∧
    (get_today_holidays ⟨5, 12, 0⟩ false (fun _ => none)
        ⟨⟨some "10:00", none, none, none, [], none⟩,
         none, none, false, []⟩).2.file = none ∧
    (get_today_holidays ⟨5, 12, 0⟩ false (fun _ => none)
        ⟨⟨some "10:00", none, none, none, [], none⟩,
         none, none, false, []⟩).2.cachedResult =
      some ⟨5, [], CALEND_RU_URL, ⟨5, 12, 0⟩, some errCouldNotRetrieve⟩ :=
  c1_theorem ⟨5, 12, 0⟩ false (fun _ => none)
    ⟨⟨some "10:00", none, none, none, [], none⟩, none, none, false, []⟩
    (by decide) (by rfl)

/-- C3 counterexample: the refresh-failure fallback of `get_today_holidays`
annotates a cached result that has a *non-empty* holiday list with the
"could not update" notice, so a produced `HolidayResult` can have both a
non-empty `holidays` and a set `error` — refuting "error is set if and only
if holidays is empty" over all operations. -/
theorem c3_counterexample :
    (get_today_holidays ⟨5, 12, 0⟩ true (fun _ => none)
        ⟨⟨some "10:00", none,
          some ⟨some 5, ["X"], some ⟨5, 0, 0⟩, some CALEND_RU_URL⟩,
          some ⟨some 6, [], none, none⟩, [], none⟩,
         none, none, false, []⟩).1.holidays ≠ [] ∧
    (get_today_holidays ⟨5, 12, 0⟩ true (fun _ => none)
        ⟨⟨some "10:00", none,
          some ⟨some 5, ["X"], some ⟨5, 0, 0⟩, some CALEND_RU_URL⟩,
          some ⟨some 6, [], none, none⟩, [], none⟩,
         none, none, false, []⟩).1.error = some errCouldNotUpdate := by
  exact ⟨by decide, by decide⟩

/-- C3 (amended): every `HolidayResult` produced by
`get_cached_holiday_result`, by a successful `refresh_holiday_cache`, or by
`ensure_holidays_for_date` has `error` set iff `holidays` is empty, the text
depending on whether the result's date equals the current calendar date; the
refresh-failure fallbacks of `get_today_holidays` are the exception and may
annotate a non-empty cached result with an error notice. -/
theorem c3_theorem :
    (∀ (p : CachePayload) (d : Day) (now : Moment) (r : HolidayResult),
        get_cached_holiday_result p d now = some r → resultInvariant r now) ∧
    (∀ (now : Moment) (fetch : Fetch) (s : Sys) (r : HolidayResult) (s' : Sys),
        refresh_holiday_cache now fetch s = (.ok (some r), s') →
        resultInvariant r now) ∧
    (∀ (target : Day) (now : Moment) (fetch : Fetch) (s : Sys)
        (r : HolidayResult) (s' : Sys),
        ensure_holidays_for_date target now fetch s = (.ok (some r), s') →
        resultInvariant r now) := by
  have hA : ∀ (p : CachePayload) (d : Day) (now : Moment) (r : HolidayResult),
      get_cached_holiday_result p d now = some r → resultInvariant r now := by
    intro p d now r h
    simp only [get_cached_holiday_result] at h
    split at h
    next r0 heq =>
      have hr := Option.some.inj h
      subst hr
      exact entry_result_invariant _ now r0 (slotLookup_eq_entry p.today d now r0 heq)
    next heq =>
      exact entry_result_invariant _ now r (slotLookup_eq_entry p.tomorrow d now r h)
  refine ⟨hA, ?_, ?_⟩
  · intro now fetch s r s' h
    obtain ⟨e, he⟩ := refresh_ok_result now fetch s r s' h
    exact entry_result_invariant e now r he
  · intro target now fetch s r s' h
    simp only [ensure_holidays_for_date] at h
    split at h
    next cached heq =>
      have h1 := congrArg Prod.fst h
      simp only at h1
      have h2 : cached = r := by
        injection h1 with h3
        exact Option.some.inj h3
      subst h2
      exact hA s.payload target now cached heq
    next heq =>
      split at h
      · split at h
        next e s1 heq2 =>
          exact absurd (congrArg Prod.fst h) (by simp)
        next q s1 heq2 =>
          have h1 := congrArg Prod.fst h
          simp only at h1
          have h2 : get_cached_holiday_result s1.payload target now = some r := by
            injection h1
          exact hA s1.payload target now r h2
      · split at h
        next hf =>
          exact absurd (congrArg Prod.fst h) (by simp)
        next hs hf =>
          have h1 := congrArg Prod.fst h
          simp only at h1
          have h2 : (⟨target, hs, dayUrl target, now,
              if hs.isEmpty then
                some (if target = now.day then errNoToday else errNoOnDate target)
              else none⟩ : HolidayResult) = r := by
            injection h1 with h3
            exact Option.some.inj h3
          subst h2
          by_cases he : hs.isEmpty
          · have he' : hs = [] := List.isEmpty_iff.mp he
            simp [resultInvariant, he, he']
          · have he' : hs ≠ [] := by simpa [List.isEmpty_iff] using he
            simp [resultInvariant, he, he']

/-- C3 witness: a cache hit on a non-empty stored entry satisfies the
error/emptiness invariant. -/
theorem c3_witness :
    resultInvariant ⟨5, ["X"], CALEND_RU_URL, ⟨5, 0, 0⟩, none⟩ ⟨5, 12, 0⟩ :=
  c3_theorem.1
    ⟨some "10:00", none,
      some ⟨some 5, ["X"], some ⟨5, 0, 0⟩, some CALEND_RU_URL⟩,
      some ⟨some 6, [], none, none⟩, [], none⟩ 5 ⟨5, 12, 0⟩
    ⟨5, ["X"], CALEND_RU_URL, ⟨5, 0, 0⟩, none⟩ (by decide)

/-- C4: a completed refresh invoked at an instant in the 23:45–23:59 window
of day D stores a `today` entry dated D+1 and a `tomorrow` entry dated D+2;
at any other instant it stores `today` = D and `tomorrow` = D+1. -/
theorem c4_theorem (now : Moment) (fetch : Fetch) (s : Sys)
    (hmin : now.minute ≤ 59)
    (hok : isOkE (refresh_holiday_cache now fetch s).1 = true) :
    ((now.hour = 23 ∧ 45 ≤ now.minute ∧ now.minute ≤ 59) →
      ((refresh_holiday_cache now fetch s).2.payload.today.getD
          emptyEntry).date = some (now.day + 1) ∧
      ((refresh_holiday_cache now fetch s).2.payload.tomorrow.getD
          emptyEntry).date = some (now.day + 2)) ∧
    (¬(now.hour = 23 ∧ 45 ≤ now.minute ∧ now.minute ≤ 59) →
      ((refresh_holiday_cache now fetch s).2.payload.today.getD
          emptyEntry).date = some now.day ∧
      ((refresh_holiday_cache now fetch s).2.payload.tomorrow.getD
          emptyEntry).date = some (now.day + 1)) := by
  obtain ⟨hs1, hs2, -, -, hpayload, -, -⟩ := refresh_ok_state now fetch s hok
  constructor
  · intro hw
    have hnm : nearMidnight now = true := by
      simp only [nearMidnight, Bool.and_eq_true, beq_iff_eq, decide_eq_true_eq]
      omega
    rw [hpayload]
    simp [_serialize_day, refreshTodayTarget, refreshTomorrowTarget, hnm]
  · intro hw
    have hnm : nearMidnight now = false := by
      simp only [nearMidnight, Bool.and_eq_false_iff, beq_eq_false_iff_ne,
        ne_eq, decide_eq_false_iff_not]
      omega
    rw [hpayload]
    simp [_serialize_day, refreshTodayTarget, refreshTomorrowTarget, hnm]

/-- C4 witness: a successful refresh at 23:50 of day 7 stores dates 8 and 9
in the `today` and `tomorrow` slots. -/
theorem c4_witness :
    ((refresh_holiday_cache ⟨7, 23, 50⟩ (fun d => some [fmtDay d])
        ⟨⟨some "10:00", none, none, none, [], none⟩,
         none, none, false, []⟩).2.payload.today.getD emptyEntry).date
      = some 8 ∧
    ((refresh_holiday_cache ⟨7, 23, 50⟩ (fun d => some [fmtDay d])
        ⟨⟨some "10:00", none, none, none, [], none⟩,
         none, none, false, []⟩).2.payload.tomorrow.getD emptyEntry).date
      = some 9 :=
  (c4_theorem ⟨7, 23, 50⟩ (fun d => some [fmtDay d])
    ⟨⟨some "10:00", none, none, none, [], none⟩, none, none, false, []⟩
    (by decide) (by decide)).1 (by decide)

/-- C8 counterexample: with the same data already freshly cached by a first
refresh, a second (serialized) refresh still performs its own pair of
downloads — the download log shows four fetches, not two — contradicting
"concurrent callers observe the in-flight refresh's result via the cache
store rather than triggering a duplicate pair of fetches". -/
theorem c8_counterexample :
    ((refresh_holiday_cache ⟨5, 12, 0⟩ (fun _ => some ["H"])
      (refresh_holiday_cache ⟨5, 12, 0⟩ (fun _ => some ["H"])
        ⟨⟨some "10:00", none, none, none, [], none⟩,
         none, none, false, []⟩).2).2).fetchLog = [5, 6, 5, 6] := by
  decide

/-- C8 (amended): each refresh execution performs its own pair of downloads
for its two selected dates, appending exactly those two dates to the
download log regardless of what the cache already holds; hence a caller that
waited for an in-flight refresh repeats the fetch pair when its turn comes
instead of reusing the stored result. -/
theorem c8_theorem (now : Moment) (fetch : Fetch) (s : Sys)
    (hok : isOkE (refresh_holiday_cache now fetch s).1 = true) :
    (refresh_holiday_cache now fetch s).2.fetchLog =
      s.fetchLog ++ [refreshTodayTarget now, refreshTomorrowTarget now] := by
  obtain ⟨hs1, hs2, -, -, -, -, hlog⟩ := refresh_ok_state now fetch s hok
  exact hlog

/-- C8 witness: a concrete successful refresh downloads exactly its two
selected dates. -/
theorem c8_witness :
    ((refresh_holiday_cache ⟨5, 12, 0⟩ (fun _ => some ["H"])
        ⟨⟨some "10:00", none, none, none, [], none⟩,
         none, none, false, []⟩).2).fetchLog = [5, 6] :=
  c8_theorem ⟨5, 12, 0⟩ (fun _ => some ["H"])
    ⟨⟨some "10:00", none, none, none, [], none⟩, none, none, false, []⟩
    (by decide)

/-- C10: when the normalized form of the input equals the stored autopost
time, `update_autopost_time` returns the normalized value leaving the whole
state untouched — no payload write, no event signal; when it differs, the
payload is rewritten (with the file persisted) and the change event is
signalled. -/
theorem c10_theorem (value : String) (s : Sys) (n : String)
    (h : _normalize_time value = .ok n) :
    (s.payload.autopost_time = some n →
      update_autopost_time value s = (.ok n, s)) ∧
    (s.payload.autopost_time ≠ some n →
      update_autopost_time value s =
        (.ok n,
         { s with
           payload := { s.payload with autopost_time := some n },
           file := some { s.payload with autopost_time := some n },
           eventSet := true })) := by
  constructor <;> intro hcase <;> simp [update_autopost_time, h, hcase]

/-- C10 witness: updating with `"7:5"` when `"07:05"` is already stored
returns the normalized value and leaves the state identical. -/
theorem c10_witness :
    update_autopost_time "7:5"
        ⟨⟨some "07:05", none, none, none, [], none⟩, none, none, false, []⟩ =
      (.ok "07:05",
       ⟨⟨some "07:05", none, none, none, [], none⟩, none, none, false, []⟩) :=
  (c10_theorem ("7:5")
    ⟨⟨some "07:05", none, none, none, [], none⟩, none, none, false, []⟩
    ("07:05") (by rfl)).1 (by decide)

/-! ## Time-validation lemmas -/

/-- Digit characters are neither whitespace nor the colon separator. -/
theorem digitChar_spec (n : Nat) :
    isWs (digitChar n) = false ∧ digitChar n ≠ ':' := by
  unfold digitChar
  split <;> decide

/-- All characters of a digit rendering are non-whitespace and non-colon. -/
theorem mapDigitOk (l : List Nat) :
    ∀ c ∈ l.map digitChar, isWs c = false ∧ c ≠ ':' := by
  intro c hc
  rcases List.mem_map.mp hc with ⟨a, -, rfl⟩
  exact ⟨(digitChar_spec a).1, (digitChar_spec a).2⟩

/-- Python `int` of a single digit character. -/
theorem pyInt_digit1 (a : Nat) (ha : a < 10) :
    pyInt [digitChar a] = some (a : Int) := by
  interval_cases a <;> decide

/-- Python `int` of two digit characters. -/
theorem pyInt_digit2 (a b : Nat) (ha : a < 10) (hb : b < 10) :
    pyInt [digitChar a, digitChar b] = some ((10 * a + b : Nat) : Int) := by
  interval_cases a <;> interval_cases b <;> decide

/-- `dropWhile` is the identity when no element satisfies the predicate. -/
theorem dropWhile_eq_self_of (p : Char → Bool) (l : List Char)
    (h : ∀ c ∈ l, p c = false) : l.dropWhile p = l := by
  cases l with
  | nil => rfl
  | cons a t => simp [List.dropWhile, h a (List.mem_cons_self a t)]

/-- Stripping a whitespace-free string is the identity. -/
theorem pyStrip_eq_self (l : List Char) (h : ∀ c ∈ l, isWs c = false) :
    pyStrip l = l := by
  unfold pyStrip
  rw [dropWhile_eq_self_of _ _ h,
    dropWhile_eq_self_of _ _ (fun c hc => h c (List.mem_reverse.mp hc)),
    List.reverse_reverse]

/-- Splitting a colon-free string yields one part. -/
theorem splitCols_no_colon (l : List Char) (h : ∀ c ∈ l, c ≠ ':') :
    splitCols l = [l] := by
  induction l with
  | nil => rfl
  | cons a t ih =>
    have ha := h a (List.mem_cons_self a t)
    have ht := ih (fun c hc => h c (List.mem_cons_of_mem a hc))
    simp [splitCols, ha, ht]

/-- Splitting around a single colon separates the two sides. -/
theorem splitCols_append_colon (l1 l2 : List Char)
    (h : ∀ c ∈ l1, c ≠ ':') :
    splitCols (l1 ++ ':' :: l2) = l1 :: splitCols l2 := by
  induction l1 with
  | nil => simp [splitCols]
  | cons a t ih =>
    have ha := h a (List.mem_cons_self a t)
    have ht := ih (fun c hc => h c (List.mem_cons_of_mem a hc))
    simp [splitCols, ha, ht]

/-- `_normalize_time` on a two-part value whose parts Python-parse to
in-range numbers yields the zero-padded rendering. -/
theorem normalize_time_parts (hcs mcs : List Char) (p q : Nat)
    (hH : pyInt hcs = some (p : Int)) (hM : pyInt mcs = some (q : Int))
    (hp : p ≤ 23) (hq : q ≤ 59)
    (hcsOk : ∀ c ∈ hcs, isWs c = false ∧ c ≠ ':')
    (hmcsOk : ∀ c ∈ mcs, isWs c = false ∧ c ≠ ':') :
    _normalize_time (String.mk (hcs ++ ':' :: mcs)) =
      .ok (String.mk (pad2 p ++ ':' :: pad2 q)) := by
  have hws : ∀ c ∈ hcs ++ ':' :: mcs, isWs c = false := by
    intro c hc
    rcases List.mem_append.mp hc with h1 | h2
    · exact (hcsOk c h1).1
    · rcases List.mem_cons.mp h2 with rfl | h3
      · decide
      · exact (hmcsOk c h3).1
  have hstrip : pyStrip (String.mk (hcs ++ ':' :: mcs)).toList
      = hcs ++ ':' :: mcs := pyStrip_eq_self _ hws
  have hsplit : splitCols (hcs ++ ':' :: mcs) = [hcs, mcs] := by
    rw [splitCols_append_colon _ _ (fun c hc => (hcsOk c hc).2),
      splitCols_no_colon _ (fun c hc => (hmcsOk c hc).2)]
  have hne : (hcs ++ ':' :: mcs).isEmpty = false := by
    cases hcs <;> rfl
  simp only [_normalize_time, hstrip, hsplit, hne, Bool.false_eq_true,
    if_false, hH, hM]
  rw [if_pos (by omega : (0 : Int) ≤ (p : Int) ∧ (p : Int) ≤ 23 ∧
    (0 : Int) ≤ (q : Int) ∧ (q : Int) ≤ 59)]
  simp

/-- A one- or two-digit rendering of `n ≤ 99` Python-parses back to `n`. -/
theorem pyInt_of_okRepr (n : Nat) (l : List Nat) (hn : n ≤ 99)
    (h : okRepr n l) : pyInt (l.map digitChar) = some (n : Int) := by
  rcases h with ⟨h10, rfl⟩ | rfl
  · simpa using pyInt_digit1 n h10
  · have h1 : n / 10 < 10 := by omega
    have h2 : n % 10 < 10 := Nat.mod_lt _ (by norm_num)
    have h3 := pyInt_digit2 (n / 10) (n % 10) h1 h2
    simpa [Nat.div_add_mod] using h3

/-- C6 counterexample: `"5:3"` is none of the shapes `H:MM`, `HH:M`,
`HH:MM`, yet `_normalize_time` accepts it and normalizes it to `"05:03"`
instead of raising — refuting "for every other string it raises a
validation error". -/
theorem c6_counterexample :
    specTimeShape "5:3" = false ∧ _normalize_time "5:3" = .ok "05:03" :=
  ⟨by decide, by rfl⟩

/-- C6 (amended): every rendering of an in-range time with a one- or
two-digit hour and a one- or two-digit minute (so `H:MM`, `HH:M`, `HH:MM`,
and also `H:M`) normalizes successfully to the zero-padded two-digit form,
and every successful normalization returns such a zero-padded in-range form;
but acceptance is wider than the three spec shapes (Python's `int` also
accepts surrounding whitespace, signs, extra leading zeros and digit
underscores), so not every other string raises a validation error. -/
theorem c6_theorem :
    (∀ (p q : Nat) (hd md : List Nat), p ≤ 23 → q ≤ 59 →
        okRepr p hd → okRepr q md →
        _normalize_time
            (String.mk (hd.map digitChar ++ ':' :: md.map digitChar)) =
          .ok (String.mk (pad2 p ++ ':' :: pad2 q))) ∧
    (∀ (s t : String), _normalize_time s = .ok t →
        ∃ p q : Nat, p ≤ 23 ∧ q ≤ 59 ∧
          t = String.mk (pad2 p ++ ':' :: pad2 q)) := by
  constructor
  · intro p q hd md hp hq hhd hmd
    exact normalize_time_parts _ _ p q
      (pyInt_of_okRepr p hd (by omega) hhd)
      (pyInt_of_okRepr q md (by omega) hmd)
      hp hq (mapDigitOk hd) (mapDigitOk md)
  · intro s t h
    simp only [_normalize_time] at h
    split at h
    · exact absurd h (by simp)
    · split at h
      next hcs mcs heq =>
        split at h
        next hi mi hH hM =>
          split at h
          next hcond =>
            refine ⟨hi.toNat, mi.toNat, by omega, by omega, ?_⟩
            injection h with h
            exact h.symm
          next hcond => exact absurd h (by simp)
        next hne1 hne2 => exact absurd h (by simp)
      next heq => exact absurd h (by simp)

/-- C6 witness: `"7:05"` (shape `H:MM`) normalizes to `"07:05"`. -/
theorem c6_witness :
    _normalize_time
        (String.mk ([7].map digitChar ++ ':' :: [0, 5].map digitChar)) =
      .ok (String.mk (pad2 7 ++ ':' :: pad2 5)) :=
  c6_theorem.1 7 5 [7] [0, 5] (by omega) (by omega)
    (Or.inl ⟨by omega, rfl⟩) (Or.inr (by decide))
